import Mathlib

/-!
# Verification of the recomputation (gradient-checkpointing) operator

A shallow embedding of `python/paddle/distributed/fleet/utils/recompute.py`:
the tensor-detachment utility `detach_variable`, the RNG-state guard
`swith_rng_state`, the custom differentiable operator
`RecomputeFunction.forward` / `RecomputeFunction.backward`, and the public
entry point `recompute`.

The underlying tensor/autograd runtime (tensors, the gradient-tracking flag,
`Tensor.detach`, the local backward driver `paddle.autograd.backward`, the
device RNG, the no-grad execution mode) is repository code that is not part
of the extracted sources; it is modelled from the specification's capability
interfaces.  Tensors carry integer data (machine floating point is abstracted
to exact integers), a `stop_gradient` flag (the inverted "requires gradient"
flag), an optional gradient accumulator, and a flag recording whether the
tensor is connected to an autograd graph.  A user-supplied `run_function` is
modelled as a deterministic differentiable function: its output data, the
gradient-tracking flags of its outputs when run under tracing, and its
vector-Jacobian product are arbitrary functions of what the function can
observe of its arguments.
-/

/-- A tensor of the runtime, as far as the recomputation code observes it.
`data` stands for the underlying storage, `stop_gradient` is the (inverted)
gradient-tracking flag, `grad` is the optional gradient accumulator slot,
and `in_graph` records whether the tensor has backward edges into an
autograd graph. -/
structure Tensor where
  data : Int
  stop_gradient : Bool
  grad : Option Int
  in_graph : Bool
deriving DecidableEq

/-- A Python value as seen by the recomputation code: a tensor, a plain
non-tensor value, or Python's `None` (which is itself a non-tensor value and
is also what `forward` stores as the placeholder for a tensor slot). -/
inductive Val where
  | tensor (t : Tensor)
  | raw (v : Int)
  | pynone
deriving DecidableEq

/-- The runtime's tensor predicate `paddle.is_tensor` /
`isinstance(-, core.VarBase)`. -/
def Val.isTensor : Val → Bool
  | Val.tensor _ => true
  | _ => false

/-- `_grad_ivar()`: read a tensor's gradient accumulator (`none` when it was
never populated); non-tensors have no accumulator. -/
def Val.gradIvar : Val → Option Int
  | Val.tensor t => t.grad
  | _ => none

/-- What a run function can observe of one argument: the storage of a
tensor, or the non-tensor value itself.  Graph membership, the tracking flag
and the accumulator are autograd bookkeeping that does not change the
numbers a function computes. -/
inductive Obs where
  | data (d : Int)
  | raw (v : Int)
  | pynone
deriving DecidableEq

/-- Observation of a value by a run function. -/
def Val.obs : Val → Obs
  | Val.tensor t => Obs.data t.data
  | Val.raw v => Obs.raw v
  | Val.pynone => Obs.pynone

/-- Modelled from the spec: the runtime capability `tensor.detach()` —
a new tensor aliasing the same storage (`data` unchanged) with no backward
edges, whose gradient-tracking flag is cleared by default
(`stop_gradient = true`) and whose accumulator is fresh. -/
def Tensor.detach (t : Tensor) : Tensor :=
  { data := t.data, stop_gradient := true, grad := none, in_graph := false }

/-- Modelled from the spec: a user-supplied differentiable `run_function`.
`fData` gives the storage of each output tensor, `fStop` the
gradient-tracking flags of the outputs when the function runs under gradient
tracing, `vjp` the vector-Jacobian product (the gradient value produced for
input slot `k`, given the observed inputs, the root output tensors handed to
the backward driver and the incoming output gradients), and `single` whether
the function returns one bare tensor rather than a tuple. -/
structure RunFn where
  fData : List Obs → List Int
  fStop : List Obs → List Bool
  vjp : List Obs → List Tensor → List (Option Int) → Nat → Int
  single : Bool

/-- What a run function returns: one tensor or a tuple of tensors. -/
inductive PyOut where
  | single (t : Tensor)
  | tuple (ts : List Tensor)
deriving DecidableEq

/-- The backward code's normalization `if isinstance(outputs, core.VarBase):
outputs = (outputs, )`, viewed as the resulting list of output tensors. -/
def normalizeOut : PyOut → List Tensor
  | PyOut.single t => [t]
  | PyOut.tuple ts => ts

/-- Package a list of freshly created output tensors the way the modelled
run function returns them. -/
def mkPyOut (single : Bool) (ts : List Tensor) : PyOut :=
  match single, ts with
  | true, [t] => PyOut.single t
  | _, ts => PyOut.tuple ts

/-- Modelled from the spec: executing `run_function` on a list of arguments.
Under the no-gradient-tracking mode (`tracking = false`) the produced
tensors are outside any graph and have gradient tracking disabled; under
tracing they carry the flags `fStop` dictates and tracked outputs are graph
nodes.  Output accumulators start unpopulated. -/
def RunFn.call (f : RunFn) (tracking : Bool) (args : List Val) : PyOut :=
  let obsList := args.map Val.obs
  let ds := f.fData obsList
  let ss := if tracking then f.fStop obsList else ds.map (fun _ => true)
  mkPyOut f.single ((ds.zip ss).map (fun p =>
    { data := p.1, stop_gradient := p.2, grad := none,
      in_graph := tracking && !p.2 }))

/-- Modelled from the spec: the write-back performed by the local backward
driver on the leaf list, counting absolute argument positions from `k`.
A tracked tensor leaf receives the vector-Jacobian product for its slot; an
untracked tensor is never written; non-tensors are untouched. -/
def writeGrads (f : RunFn) (obsAll : List Obs) (roots : List Tensor)
    (g : List (Option Int)) : List Val → Nat → List Val
  | [], _ => []
  | Val.tensor t :: rest, k =>
      (if t.stop_gradient then Val.tensor t
       else Val.tensor { t with grad := some (f.vjp obsAll roots g k) }) ::
      writeGrads f obsAll roots g rest (k + 1)
  | Val.raw v :: rest, k => Val.raw v :: writeGrads f obsAll roots g rest (k + 1)
  | Val.pynone :: rest, k => Val.pynone :: writeGrads f obsAll roots g rest (k + 1)

/-- Modelled from the spec: the runtime capability
`paddle.autograd.backward(output_tensors, grad_tensors)` — the local
backward driver.  Given the fresh local graph built by running `f` on the
`leaves`, the root output tensors and their incoming gradients, it populates
the gradient accumulator of every tracked leaf tensor. -/
def driverBackward (f : RunFn) (leaves : List Val) (roots : List Tensor)
    (grads : List (Option Int)) : List Val :=
  writeGrads f (leaves.map Val.obs) roots grads leaves 0

/-- The read-out `list(inp._grad_ivar() for inp in detached_inputs if
isinstance(inp, core.VarBase))` from the end of `backward`. -/
def collectGrads (l : List Val) : List (Option Int) :=
  (l.filter Val.isTensor).map Val.gradIvar

/-- The runtime errors the recomputation code can raise, named as in the
specification's error taxonomy. -/
inductive RecomputeError where
  | unsupportedDevice (device : String)
  | shapeMismatch
  | noGradientRequired
  | gradientCountMismatch (numForwardOutputs : Nat) (numBackwardInputs : Nat)
  | invalidArgument (keys : String)
deriving DecidableEq

/-- Observable events of a forward invocation: the advisory diagnostic, the
capture of the device RNG state, and the execution of `run_function`. -/
inductive Event where
  | warnedUnnecessary
  | capturedRng
  | ranFunction
deriving DecidableEq

/-- Python's substring test `needle in hay` on character lists. -/
def listContainsSub (needle : List Char) : List Char → Bool
  | [] => needle.isEmpty
  | c :: rest => needle.isPrefixOf (c :: rest) || listContainsSub needle rest

/-- The test `'gpu:' in cur_device` from `RecomputeFunction.forward`. -/
def isGpuDevice (device : String) : Bool :=
  listContainsSub "gpu:".toList device.toList

/-- `detach_variable(inputs)`: pass every non-tensor through unchanged and
replace every tensor by a detached copy whose `stop_gradient` flag is
explicitly copied back from the original (`x = inp.detach();
x.stop_gradient = inp.stop_gradient`).  Purely functional, so the inputs
themselves are never modified. -/
def detach_variable : List Val → List Val
  | [] => []
  | inp :: rest =>
    (match inp with
     | Val.tensor t => Val.tensor { t.detach with stop_gradient := t.stop_gradient }
     | v => v) :: detach_variable rest

/-- The predicate inside `check_recompute_necessary`: some input is a tensor
with `stop_gradient == False`.  The forward pass warns when it is false. -/
def needRecompute (inputs : List Val) : Bool :=
  inputs.any (fun v =>
    match v with
    | Val.tensor t => !t.stop_gradient
    | _ => false)

/-- `swith_rng_state(rng_state)` (the source's spelling): save the current
device RNG state, install the given one, run the block (which receives the
installed state and may itself advance the generator and fail), and restore
the saved state on every exit path; a failure of the block is propagated
after the restoration.  The device RNG is threaded as explicit state. -/
def swith_rng_state {E α : Type} (rng_state : Nat)
    (block : Nat → Except E (α × Nat)) (cur : Nat) : Except E α × Nat :=
  let orig_cuda_rng_state := cur
  match block rng_state with
  | Except.ok (a, _) => (Except.ok a, orig_cuda_rng_state)
  | Except.error e => (Except.error e, orig_cuda_rng_state)

/-- The recompute context saved by `forward` and consumed by `backward`:
`inputs` keeps non-tensor arguments verbatim with `None` placeholders at
tensor slots, `tensor_indices` the positions of the tensor arguments in
original order, `saved_tensors` the tensors registered with the runtime's
backward-save mechanism, and `fw_cuda_rng_state` the RNG snapshot (present
only when `preserve_rng_state` is set). -/
structure Ctx where
  run_function : RunFn
  preserve_rng_state : Bool
  fw_cuda_rng_state : Option Nat
  inputs : List Val
  tensor_indices : List Nat
  saved_tensors : List Tensor

/-- The partition loop of `forward`: walk the positional arguments with
their indices; a tensor contributes a `None` placeholder to `ctx.inputs`,
its index to `ctx.tensor_indices` and itself to the saved set; anything else
is stored verbatim in `ctx.inputs`. -/
def partitionLoop : List Val → Nat → List Val × List Nat × List Tensor
  | [], _ => ([], [], [])
  | arg :: rest, i =>
    let r := partitionLoop rest (i + 1)
    match arg with
    | Val.tensor t => (Val.pynone :: r.1, i :: r.2.1, t :: r.2.2)
    | a => (a :: r.1, r.2.1, r.2.2)

/-- The context a successful `forward` saves for the given arguments. -/
def mkCtx (f : RunFn) (preserve : Bool) (fw : Option Nat) (args : List Val) : Ctx :=
  { run_function := f, preserve_rng_state := preserve, fw_cuda_rng_state := fw,
    inputs := (partitionLoop args 0).1,
    tensor_indices := (partitionLoop args 0).2.1,
    saved_tensors := (partitionLoop args 0).2.2 }

/-- `RecomputeFunction.forward(ctx, run_function, preserve_rng_state,
*args)` with the ambient device name and device RNG state passed
explicitly.  It emits the advisory diagnostic when no input needs gradient,
partitions the arguments into the context, checks the device and captures
the RNG snapshot when `preserve_rng_state` is set, and runs `run_function`
under the no-gradient mode.  The second component is the event trace of the
invocation. -/
def RecomputeFunction.forward (run_function : RunFn) (preserve_rng_state : Bool)
    (args : List Val) (device : String) (rng : Nat) :
    Except RecomputeError (Ctx × PyOut) × List Event :=
  let warn := if needRecompute args then [] else [Event.warnedUnnecessary]
  if preserve_rng_state then
    if isGpuDevice device then
      (Except.ok (mkCtx run_function true (some rng) args,
          run_function.call false args),
       warn ++ [Event.capturedRng, Event.ranFunction])
    else (Except.error (RecomputeError.unsupportedDevice device), warn)
  else
    (Except.ok (mkCtx run_function false none args, run_function.call false args),
     warn ++ [Event.ranFunction])

/-- The restore loop of `backward`: `inputs = list(ctx.inputs); for i, idx in
enumerate(tensor_indices): inputs[idx] = tensors[i]`. -/
def restoreInputs : List Val → List Nat → List Tensor → List Val
  | inputs, idx :: idxs, t :: ts =>
      restoreInputs (inputs.set idx (Val.tensor t)) idxs ts
  | inputs, _, _ => inputs

/-- The recomputation step run (possibly under the RNG guard) by
`backward`: detach the restored inputs and re-execute `run_function` on them
under gradient tracing.  The run functions of the model are deterministic,
so the step neither advances the generator nor fails. -/
def recomputeBody (ctx : Ctx) (inputs : List Val) (s : Nat) :
    Except RecomputeError ((List Val × PyOut) × Nat) :=
  let detached_inputs := detach_variable inputs
  Except.ok ((detached_inputs, ctx.run_function.call true detached_inputs), s)

/-- `RecomputeFunction.backward(ctx, *args)` with the device RNG state
threaded explicitly.  It restores the original argument list, re-runs
`run_function` on detached copies (under the RNG guard seeded with the
forward snapshot when `preserve_rng_state` is set), normalizes the outputs,
checks their count against the incoming gradients, selects the outputs that
track gradients, checks the selection against the full incoming gradient
list, drives the local backward, and reads off the accumulators of the
detached tensor inputs. -/
def RecomputeFunction.backward (ctx : Ctx) (rng : Nat)
    (args : List (Option Int)) :
    Except RecomputeError (List (Option Int)) × Nat :=
  let inputs := restoreInputs ctx.inputs ctx.tensor_indices ctx.saved_tensors
  let step : Except RecomputeError (List Val × PyOut) × Nat :=
    match ctx.preserve_rng_state, ctx.fw_cuda_rng_state with
    | true, some fwState => swith_rng_state fwState (recomputeBody ctx inputs) rng
    | _, _ =>
      match recomputeBody ctx inputs rng with
      | Except.ok (v, _) => (Except.ok v, rng)
      | Except.error e => (Except.error e, rng)
  match step with
  | (Except.error e, r) => (Except.error e, r)
  | (Except.ok (detached_inputs, outputs), r) =>
    let outs := normalizeOut outputs
    if outs.length = args.length then
      let forward_outputs_with_grad := outs.filter (fun t => !t.stop_gradient)
      let backward_inputs := args
      if forward_outputs_with_grad.length = 0 then
        (Except.error RecomputeError.noGradientRequired, r)
      else if forward_outputs_with_grad.length = backward_inputs.length then
        (Except.ok (collectGrads (driverBackward ctx.run_function detached_inputs
            forward_outputs_with_grad backward_inputs)), r)
      else
        (Except.error (RecomputeError.gradientCountMismatch
            forward_outputs_with_grad.length backward_inputs.length), r)
    else (Except.error RecomputeError.shapeMismatch, r)

/-- The gradient-tracking-free core of `backward`: what the computation
reduces to once the RNG guard (which only restores the generator) is
discharged. -/
def backwardCore (ctx : Ctx) (args : List (Option Int)) :
    Except RecomputeError (List (Option Int)) :=
  let inputs := restoreInputs ctx.inputs ctx.tensor_indices ctx.saved_tensors
  let detached_inputs := detach_variable inputs
  let outs := normalizeOut (ctx.run_function.call true detached_inputs)
  if outs.length = args.length then
    let forward_outputs_with_grad := outs.filter (fun t => !t.stop_gradient)
    if forward_outputs_with_grad.length = 0 then
      Except.error RecomputeError.noGradientRequired
    else if forward_outputs_with_grad.length = args.length then
      Except.ok (collectGrads (driverBackward ctx.run_function detached_inputs
          forward_outputs_with_grad args))
    else
      Except.error (RecomputeError.gradientCountMismatch
          forward_outputs_with_grad.length args.length)
  else Except.error RecomputeError.shapeMismatch

/-- `recompute(function, *args, **kwargs)`: pop `preserve_rng_state`
(default `True`) from the keyword arguments, reject any remaining keyword
argument naming the unexpected keys, and otherwise delegate to the
operator's forward path. -/
def recompute (function : RunFn) (args : List Val)
    (kwargs : List (String × Bool)) (device : String) (rng : Nat) :
    Except RecomputeError (Ctx × PyOut) × List Event :=
  let preserve := (kwargs.lookup "preserve_rng_state").getD true
  let rest := kwargs.filter (fun p => p.1 != "preserve_rng_state")
  if rest.isEmpty then RecomputeFunction.forward function preserve args device rng
  else
    (Except.error (RecomputeError.invalidArgument
        (String.intercalate "," (rest.map Prod.fst))), [])

/-- The detached reassembled inputs a backward invocation recomputes on. -/
def bwdDetached (ctx : Ctx) : List Val :=
  detach_variable (restoreInputs ctx.inputs ctx.tensor_indices ctx.saved_tensors)

/-- The normalized recomputed outputs of a backward invocation. -/
def bwdOuts (ctx : Ctx) : List Tensor :=
  normalizeOut (ctx.run_function.call true (bwdDetached ctx))

/-- The recomputed outputs a backward invocation selects: exactly those with
gradient tracking enabled. -/
def bwdSelected (ctx : Ctx) : List Tensor :=
  (bwdOuts ctx).filter (fun t => !t.stop_gradient)

/-- Modelled from the spec: the reference semantics the gradient-equivalence
property compares against — run `run_function` directly under full gradient
tracking on the original inputs, drive the runtime backward with the full
output list and the same incoming output gradients, and read off, in
original order, the gradient accumulator of every tensor input. -/
def directGradients (f : RunFn) (args : List Val)
    (gradOuts : List (Option Int)) : List (Option Int) :=
  collectGrads (driverBackward f args (normalizeOut (f.call true args)) gradOuts)

/-- Modelled from the spec: the pairing the specification describes in the
backward selection step — the incoming gradients at exactly the positions
whose recomputed output has gradient tracking enabled. -/
def specCorrespondingGrads (outs : List Tensor) (g : List (Option Int)) :
    List (Option Int) :=
  ((outs.zip g).filter (fun p => !p.1.stop_gradient)).map Prod.snd

/-- All tensors of an argument list have an unpopulated accumulator. -/
def freshVal : Val → Bool
  | Val.tensor t => t.grad.isNone
  | _ => true

/-- Pointwise similarity used to compare detached inputs with the original
ones: same tensor-ness, same tracking flag, and — for untracked tensors,
whose accumulator the driver never writes — the same accumulator. -/
def simVal : Val → Val → Prop
  | Val.tensor t1, Val.tensor t2 =>
      t1.stop_gradient = t2.stop_gradient ∧
        (t1.stop_gradient = true → t1.grad = t2.grad)
  | Val.tensor _, _ => False
  | _, Val.tensor _ => False
  | _, _ => True

/-- A gradient-tracked input tensor used by the concrete scenarios. -/
def tA : Tensor := { data := 3, stop_gradient := false, grad := none, in_graph := false }

/-- A non-tracked input tensor used by the concrete scenarios. -/
def tB : Tensor := { data := 4, stop_gradient := true, grad := none, in_graph := false }

/-- A mixed argument list: tracked tensor, plain scalar, non-tracked tensor. -/
def args0 : List Val := [Val.tensor tA, Val.raw 2, Val.tensor tB]

/-- Sum of the observations, the arithmetic of the concrete run functions. -/
def Obs.toInt : Obs → Int
  | Obs.data d => d
  | Obs.raw v => v
  | Obs.pynone => 0

/-- A concrete differentiable run function: one tracked output holding the
sum of the inputs; its vector-Jacobian product hands every slot the first
incoming gradient. -/
def fLin : RunFn :=
  { fData := fun o => [(o.map Obs.toInt).sum],
    fStop := fun _ => [false],
    vjp := fun _ _ g _ => (g.headD none).getD 0,
    single := false }

/-- A run function with two outputs of which only the first tracks
gradients. -/
def fMix : RunFn :=
  { fData := fun _ => [1, 2],
    fStop := fun _ => [false, true],
    vjp := fun _ _ _ _ => 0,
    single := false }

/-- A run function with two tracked outputs. -/
def fPair : RunFn :=
  { fData := fun _ => [1, 2],
    fStop := fun _ => [false, false],
    vjp := fun _ _ _ _ => 0,
    single := false }

/-- A run function returning one bare tracked tensor; its vector-Jacobian
product records the slot index. -/
def fOne : RunFn :=
  { fData := fun _ => [7],
    fStop := fun _ => [false],
    vjp := fun _ _ _ k => 10 + Int.ofNat k,
    single := true }

/-- A one-tensor argument list for the error scenarios. -/
def argsOne : List Val := [Val.tensor tA]

/-- A two-tensor argument list (one tracked, one not). -/
def argsAB : List Val := [Val.tensor tA, Val.tensor tB]

/-- The context a forward pass on `argsOne` with `fMix` saves. -/
def ctxMix : Ctx := mkCtx fMix false none argsOne

/-- The context a forward pass on `argsOne` with `fPair` saves. -/
def ctxPair : Ctx := mkCtx fPair false none argsOne

/-- The context a forward pass on `argsAB` with `fOne` saves. -/
def ctxAB : Ctx := mkCtx fOne false none argsAB

/-- A block for the RNG-guard scenarios that succeeds and advances the
generator. -/
def blockOkW : Nat → Except Nat (Int × Nat) := fun s => Except.ok (Int.ofNat s, s + 1)

/-- A block for the RNG-guard scenarios that fails. -/
def blockErrW : Nat → Except Nat (Int × Nat) := fun _ => Except.error 42

/-! ## Structural lemmas about the source translation -/

lemma partitionLoop_shift (args : List Val) :
    ∀ i, partitionLoop args (i + 1) =
      ((partitionLoop args i).1,
       ((partitionLoop args i).2.1).map (· + 1),
       (partitionLoop args i).2.2) := by
  induction args with
  | nil => intro i; rfl
  | cons a rest ih =>
    intro i
    cases a with
    | tensor t => simp [partitionLoop, ih (i + 1), ih i]
    | raw v => simp [partitionLoop, ih (i + 1), ih i]
    | pynone => simp [partitionLoop, ih (i + 1), ih i]

lemma restoreInputs_cons_shift :
    ∀ (idxs : List Nat) (ts : List Tensor) (x : Val) (l : List Val),
      restoreInputs (x :: l) (idxs.map (· + 1)) ts = x :: restoreInputs l idxs ts := by
  intro idxs
  induction idxs with
  | nil => intro ts x l; cases ts <;> rfl
  | cons j rest ih =>
    intro ts x l
    cases ts with
    | nil => rfl
    | cons t ts2 =>
      show restoreInputs ((x :: l).set (j + 1) (Val.tensor t)) (rest.map (· + 1)) ts2 =
        x :: restoreInputs (l.set j (Val.tensor t)) rest ts2
      exact ih ts2 x (l.set j (Val.tensor t))

lemma restore_partition (args : List Val) :
    restoreInputs (partitionLoop args 0).1 (partitionLoop args 0).2.1
      (partitionLoop args 0).2.2 = args := by
  induction args with
  | nil => rfl
  | cons a rest ih =>
    have hs := partitionLoop_shift rest 0
    cases a with
    | tensor t =>
      show restoreInputs ((Val.pynone :: (partitionLoop rest 1).1).set 0 (Val.tensor t))
          (partitionLoop rest 1).2.1 (partitionLoop rest 1).2.2 = Val.tensor t :: rest
      rw [hs]
      show restoreInputs (Val.tensor t :: (partitionLoop rest 0).1)
          ((partitionLoop rest 0).2.1.map (· + 1)) (partitionLoop rest 0).2.2 =
        Val.tensor t :: rest
      rw [restoreInputs_cons_shift, ih]
    | raw v =>
      show restoreInputs (Val.raw v :: (partitionLoop rest 1).1)
          (partitionLoop rest 1).2.1 (partitionLoop rest 1).2.2 = Val.raw v :: rest
      rw [hs]
      rw [restoreInputs_cons_shift, ih]
    | pynone =>
      show restoreInputs (Val.pynone :: (partitionLoop rest 1).1)
          (partitionLoop rest 1).2.1 (partitionLoop rest 1).2.2 = Val.pynone :: rest
      rw [hs]
      rw [restoreInputs_cons_shift, ih]

lemma partition_idx_saved_len (args : List Val) :
    ∀ i, (partitionLoop args i).2.1.length = (partitionLoop args i).2.2.length := by
  induction args with
  | nil => intro i; rfl
  | cons a rest ih =>
    intro i
    cases a with
    | tensor t => simp [partitionLoop, ih (i + 1)]
    | raw v => simp [partitionLoop, ih (i + 1)]
    | pynone => simp [partitionLoop, ih (i + 1)]

lemma partition_idx_len_filter (args : List Val) :
    ∀ i, (partitionLoop args i).2.1.length = (args.filter Val.isTensor).length := by
  induction args with
  | nil => intro i; rfl
  | cons a rest ih =>
    intro i
    cases a with
    | tensor t => simp [partitionLoop, List.filter, Val.isTensor, ih (i + 1)]
    | raw v => simp [partitionLoop, List.filter, Val.isTensor, ih (i + 1)]
    | pynone => simp [partitionLoop, List.filter, Val.isTensor, ih (i + 1)]

lemma detach_variable_eq_map (l : List Val) :
    detach_variable l = l.map (fun v =>
      match v with
      | Val.tensor t => Val.tensor { t.detach with stop_gradient := t.stop_gradient }
      | v => v) := by
  induction l with
  | nil => rfl
  | cons a rest ih => cases a <;> simp [detach_variable, ih]

lemma detach_variable_map_obs (l : List Val) :
    (detach_variable l).map Val.obs = l.map Val.obs := by
  induction l with
  | nil => rfl
  | cons a rest ih =>
    cases a <;> simp [detach_variable, Val.obs, Tensor.detach, ih]

lemma detach_variable_filter (l : List Val) :
    (detach_variable l).filter Val.isTensor =
      (l.filter Val.isTensor).map (fun v =>
        match v with
        | Val.tensor t => Val.tensor { t.detach with stop_gradient := t.stop_gradient }
        | v => v) := by
  induction l with
  | nil => rfl
  | cons a rest ih =>
    cases a <;> simp [detach_variable, List.filter, Val.isTensor, ih]

lemma detach_sim (l : List Val) (h : l.all freshVal = true) :
    List.Forall₂ simVal (detach_variable l) l := by
  induction l with
  | nil => exact List.Forall₂.nil
  | cons a rest ih =>
    rw [List.all_cons, Bool.and_eq_true] at h
    cases a with
    | tensor t =>
      refine List.Forall₂.cons ?_ (ih h.2)
      refine ⟨rfl, fun _ => ?_⟩
      have : t.grad = none := Option.isNone_iff_eq_none.mp h.1
      simp [Tensor.detach, this]
    | raw v => exact List.Forall₂.cons trivial (ih h.2)
    | pynone => exact List.Forall₂.cons trivial (ih h.2)

lemma normalizeOut_mkPyOut (b : Bool) (ts : List Tensor) :
    normalizeOut (mkPyOut b ts) = ts := by
  cases b with
  | false => cases ts <;> rfl
  | true =>
    cases ts with
    | nil => rfl
    | cons t ts2 => cases ts2 <;> rfl

lemma zip_replicate_map {α β : Type} (F : α × Bool → β) (b : Bool) :
    ∀ (l : List α), (l.zip (List.replicate l.length b)).map F = l.map (fun d => F (d, b)) := by
  intro l
  induction l with
  | nil => rfl
  | cons x rest ih => simp [List.replicate, ih]

lemma backward_eq (ctx : Ctx) (rng : Nat) (args : List (Option Int)) :
    RecomputeFunction.backward ctx rng args = (backwardCore ctx args, rng) := by
  obtain ⟨f, p, fw, ins, idxs, saved⟩ := ctx
  cases p <;> cases fw <;>
    (simp [RecomputeFunction.backward, backwardCore, recomputeBody, swith_rng_state]
     split_ifs <;> rfl)

lemma forward_ok (f : RunFn) (preserve : Bool) (args : List Val)
    (device : String) (rng : Nat) (h : preserve = true → isGpuDevice device = true) :
    RecomputeFunction.forward f preserve args device rng =
      (Except.ok (mkCtx f preserve (if preserve then some rng else none) args,
          f.call false args),
       (if needRecompute args then [] else [Event.warnedUnnecessary]) ++
         (if preserve then [Event.capturedRng, Event.ranFunction]
          else [Event.ranFunction])) := by
  cases preserve with
  | false => rfl
  | true =>
    have hg := h rfl
    simp [RecomputeFunction.forward, hg]

lemma forward_ok_inv {f : RunFn} {preserve : Bool} {args : List Val}
    {device : String} {rng : Nat} {ctx : Ctx} {out : PyOut} {tr : List Event}
    (h : RecomputeFunction.forward f preserve args device rng =
      (Except.ok (ctx, out), tr)) :
    ctx = mkCtx f preserve (if preserve then some rng else none) args ∧
      out = f.call false args := by
  cases preserve with
  | false =>
    rw [forward_ok f false args device rng (by intro hh; cases hh)] at h
    simp only [Prod.mk.injEq, Except.ok.injEq] at h
    exact ⟨h.1.1.symm, h.1.2.symm⟩
  | true =>
    by_cases hg : isGpuDevice device = true
    · rw [forward_ok f true args device rng (fun _ => hg)] at h
      simp only [Prod.mk.injEq, Except.ok.injEq] at h
      exact ⟨h.1.1.symm, h.1.2.symm⟩
    · simp [RecomputeFunction.forward, hg] at h

lemma collectGrads_cons_tensor (t : Tensor) (rest : List Val) :
    collectGrads (Val.tensor t :: rest) = t.grad :: collectGrads rest := by
  simp [collectGrads, List.filter, Val.isTensor, Val.gradIvar]

lemma collectGrads_cons_raw (v : Int) (rest : List Val) :
    collectGrads (Val.raw v :: rest) = collectGrads rest := by
  simp [collectGrads, List.filter, Val.isTensor]

lemma collectGrads_cons_pynone (rest : List Val) :
    collectGrads (Val.pynone :: rest) = collectGrads rest := by
  simp [collectGrads, List.filter, Val.isTensor]

lemma collect_writeGrads_congr (f : RunFn) (o : List Obs) (r : List Tensor)
    (g : List (Option Int)) {l1 l2 : List Val} (h : List.Forall₂ simVal l1 l2) :
    ∀ k, collectGrads (writeGrads f o r g l1 k) = collectGrads (writeGrads f o r g l2 k) := by
  induction h with
  | nil => intro k; rfl
  | cons hsim htail ih =>
    intro k
    rename_i v1 v2 r1 r2
    cases v1 with
    | tensor t1 =>
      cases v2 with
      | tensor t2 =>
        obtain ⟨hstop, hgrad⟩ := hsim
        cases hst : t1.stop_gradient with
        | true =>
          rw [writeGrads, writeGrads, if_pos hst, if_pos (hstop ▸ hst),
            collectGrads_cons_tensor, collectGrads_cons_tensor, hgrad hst, ih (k + 1)]
        | false =>
          rw [writeGrads, writeGrads, if_neg (by simp [hst]),
            if_neg (by simp [hstop ▸ hst]), collectGrads_cons_tensor,
            collectGrads_cons_tensor, ih (k + 1)]
      | raw v => exact absurd hsim (by simp [simVal])
      | pynone => exact absurd hsim (by simp [simVal])
    | raw v1 =>
      cases v2 with
      | tensor t2 => exact absurd hsim (by simp [simVal])
      | raw v2 =>
        rw [writeGrads, writeGrads, collectGrads_cons_raw, collectGrads_cons_raw, ih (k + 1)]
      | pynone =>
        rw [writeGrads, writeGrads, collectGrads_cons_raw, collectGrads_cons_pynone, ih (k + 1)]
    | pynone =>
      cases v2 with
      | tensor t2 => exact absurd hsim (by simp [simVal])
      | raw v2 =>
        rw [writeGrads, writeGrads, collectGrads_cons_pynone, collectGrads_cons_raw, ih (k + 1)]
      | pynone =>
        rw [writeGrads, writeGrads, collectGrads_cons_pynone, collectGrads_cons_pynone, ih (k + 1)]

lemma collect_writeGrads_length (f : RunFn) (o : List Obs) (r : List Tensor)
    (g : List (Option Int)) :
    ∀ (l : List Val) (k : Nat),
      (collectGrads (writeGrads f o r g l k)).length = (l.filter Val.isTensor).length := by
  intro l
  induction l with
  | nil => intro k; rfl
  | cons a rest ih =>
    intro k
    cases a with
    | tensor t =>
      cases hst : t.stop_gradient with
      | true =>
        rw [writeGrads, if_pos hst, collectGrads_cons_tensor]
        simp [List.filter, Val.isTensor, ih (k + 1)]
      | false =>
        rw [writeGrads, if_neg (by simp [hst]), collectGrads_cons_tensor]
        simp [List.filter, Val.isTensor, ih (k + 1)]
    | raw v =>
      rw [writeGrads, collectGrads_cons_raw]
      simp [List.filter, Val.isTensor, ih (k + 1)]
    | pynone =>
      rw [writeGrads, collectGrads_cons_pynone]
      simp [List.filter, Val.isTensor, ih (k + 1)]

lemma collect_writeGrads_get (f : RunFn) (o : List Obs) (r : List Tensor)
    (g : List (Option Int)) :
    ∀ (l : List Val) (k i : Nat) (t : Tensor),
      (l.filter Val.isTensor).get? k = some (Val.tensor t) → t.stop_gradient = true →
      (collectGrads (writeGrads f o r g l i)).get? k = some t.grad := by
  intro l
  induction l with
  | nil => intro k i t hk; simp [List.filter] at hk
  | cons a rest ih =>
    intro k i t hk ht
    cases a with
    | tensor t0 =>
      rw [show (Val.tensor t0 :: rest).filter Val.isTensor =
          Val.tensor t0 :: rest.filter Val.isTensor by simp [List.filter, Val.isTensor]] at hk
      cases k with
      | zero =>
        rw [List.get?] at hk
        have ht0 : t0 = t := by
          have := Option.some.inj hk
          exact Val.tensor.inj this
        subst ht0
        rw [writeGrads, if_pos ht, collectGrads_cons_tensor]
        rfl
      | succ k2 =>
        rw [List.get?] at hk
        cases hst : t0.stop_gradient with
        | true =>
          rw [writeGrads, if_pos hst, collectGrads_cons_tensor]
          exact ih k2 (i + 1) t hk ht
        | false =>
          rw [writeGrads, if_neg (by simp [hst]), collectGrads_cons_tensor]
          exact ih k2 (i + 1) t hk ht
    | raw v =>
      rw [show (Val.raw v :: rest).filter Val.isTensor =
          rest.filter Val.isTensor by simp [List.filter, Val.isTensor]] at hk
      rw [writeGrads, collectGrads_cons_raw]
      exact ih k (i + 1) t hk ht
    | pynone =>
      rw [show (Val.pynone :: rest).filter Val.isTensor =
          rest.filter Val.isTensor by simp [List.filter, Val.isTensor]] at hk
      rw [writeGrads, collectGrads_cons_pynone]
      exact ih k (i + 1) t hk ht

lemma call_all_tracked (f : RunFn) (l : List Val)
    (h : f.fStop (l.map Val.obs) =
      List.replicate (f.fData (l.map Val.obs)).length false) :
    normalizeOut (f.call true l) =
      (f.fData (l.map Val.obs)).map (fun d =>
        { data := d, stop_gradient := false, grad := none, in_graph := true }) := by
  simp only [RunFn.call, if_pos]
  rw [h, normalizeOut_mkPyOut, zip_replicate_map]
  rfl

lemma filter_tracked_map (D : List Int) :
    (D.map (fun d =>
      ({ data := d, stop_gradient := false, grad := none, in_graph := true } : Tensor))).filter
        (fun t => !t.stop_gradient) =
      D.map (fun d => { data := d, stop_gradient := false, grad := none, in_graph := true }) := by
  induction D with
  | nil => rfl
  | cons d rest ih => simp [List.filter, ih]

lemma backwardCore_mkCtx (f : RunFn) (p : Bool) (fw : Option Nat)
    (args : List Val) (g : List (Option Int)) :
    backwardCore (mkCtx f p fw args) g =
      (if (normalizeOut (f.call true (detach_variable args))).length = g.length then
        if ((normalizeOut (f.call true (detach_variable args))).filter
            (fun t => !t.stop_gradient)).length = 0 then
          Except.error RecomputeError.noGradientRequired
        else if ((normalizeOut (f.call true (detach_variable args))).filter
            (fun t => !t.stop_gradient)).length = g.length then
          Except.ok (collectGrads (driverBackward f (detach_variable args)
            ((normalizeOut (f.call true (detach_variable args))).filter
              (fun t => !t.stop_gradient)) g))
        else Except.error (RecomputeError.gradientCountMismatch
          ((normalizeOut (f.call true (detach_variable args))).filter
            (fun t => !t.stop_gradient)).length g.length)
      else Except.error RecomputeError.shapeMismatch) := by
  simp only [backwardCore, mkCtx]
  rw [restore_partition]

/-! ## Claim theorems -/

/-- C1: for any differentiable run function and any input set containing at
least one gradient-tracked tensor (inputs with fresh accumulators), the
gradients returned by the recomputation operator's backward pass — forward
under no-grad, then re-execution over detached inputs and local backward —
equal the gradients obtained by running the function directly under full
gradient tracking with identical inputs and identical incoming output
gradients.  Differentiability is expressed by all recomputed outputs
tracking gradients; the model works over exact integers, so equality is
exact. -/
theorem recompute_gradient_equivalence
    (f : RunFn) (args : List Val) (gradOuts : List (Option Int))
    (preserve : Bool) (device : String) (rng rng2 : Nat)
    (hdev : preserve = true → isGpuDevice device = true)
    (htracked : needRecompute args = true)
    (hfresh : args.all freshVal = true)
    (hdiff : f.fStop (args.map Val.obs) =
      List.replicate (f.fData (args.map Val.obs)).length false)
    (hout : 0 < (f.fData (args.map Val.obs)).length)
    (hlen : (f.fData (args.map Val.obs)).length = gradOuts.length) :
    ∃ ctx out tr,
      RecomputeFunction.forward f preserve args device rng =
        (Except.ok (ctx, out), tr) ∧
      (RecomputeFunction.backward ctx rng2 gradOuts).1 =
        Except.ok (directGradients f args gradOuts) := by
  refine ⟨mkCtx f preserve (if preserve then some rng else none) args,
    f.call false args,
    (if needRecompute args then [] else [Event.warnedUnnecessary]) ++
      (if preserve then [Event.capturedRng, Event.ranFunction]
       else [Event.ranFunction]),
    forward_ok f preserve args device rng hdev, ?_⟩
  rw [backward_eq]
  have hobs := detach_variable_map_obs args
  have hcall1 : normalizeOut (f.call true (detach_variable args)) =
      (f.fData (args.map Val.obs)).map (fun d =>
        { data := d, stop_gradient := false, grad := none, in_graph := true }) := by
    rw [call_all_tracked f (detach_variable args) (by rw [hobs]; exact hdiff), hobs]
  have hcall2 : normalizeOut (f.call true args) =
      (f.fData (args.map Val.obs)).map (fun d =>
        { data := d, stop_gradient := false, grad := none, in_graph := true }) :=
    call_all_tracked f args hdiff
  show backwardCore (mkCtx f preserve (if preserve then some rng else none) args)
    gradOuts = Except.ok (directGradients f args gradOuts)
  rw [backwardCore_mkCtx, hcall1, filter_tracked_map]
  rw [if_pos (by rw [List.length_map]; exact hlen)]
  rw [if_neg (by rw [List.length_map]; exact Nat.pos_iff_ne_zero.mp hout)]
  rw [if_pos (by rw [List.length_map]; exact hlen)]
  have hdir : directGradients f args gradOuts =
      collectGrads (driverBackward f args
        ((f.fData (args.map Val.obs)).map (fun d =>
          { data := d, stop_gradient := false, grad := none, in_graph := true }))
        gradOuts) := by
    rw [directGradients, hcall2]
  rw [hdir]
  refine congrArg Except.ok ?_
  show collectGrads (writeGrads f ((detach_variable args).map Val.obs) _ gradOuts
      (detach_variable args) 0) =
    collectGrads (writeGrads f (args.map Val.obs) _ gradOuts args 0)
  rw [hobs]
  exact collect_writeGrads_congr f (args.map Val.obs) _ gradOuts
    (detach_sim args hfresh) 0

lemma partition_inputs_map (args : List Val) :
    ∀ i, (partitionLoop args i).1 =
      args.map (fun v => if v.isTensor then Val.pynone else v) := by
  induction args with
  | nil => intro i; rfl
  | cons a rest ih =>
    intro i
    cases a with
    | tensor t => simp [partitionLoop, Val.isTensor, ih (i + 1)]
    | raw v => simp [partitionLoop, Val.isTensor, ih (i + 1)]
    | pynone => simp [partitionLoop, Val.isTensor, ih (i + 1)]

lemma backwardCore_cases (ctx : Ctx) (g : List (Option Int)) :
    backwardCore ctx g =
      (if (bwdOuts ctx).length = g.length then
        if (bwdSelected ctx).length = 0 then
          Except.error RecomputeError.noGradientRequired
        else if (bwdSelected ctx).length = g.length then
          Except.ok (collectGrads (driverBackward ctx.run_function (bwdDetached ctx)
            (bwdSelected ctx) g))
        else Except.error (RecomputeError.gradientCountMismatch
          (bwdSelected ctx).length g.length)
      else Except.error RecomputeError.shapeMismatch) := rfl

lemma backward_ok_grads {f : RunFn} {preserve : Bool} {args : List Val}
    {device : String} {rng rng2 : Nat} {gradOuts grads : List (Option Int)}
    {ctx : Ctx} {out : PyOut} {tr : List Event}
    (hfwd : RecomputeFunction.forward f preserve args device rng =
      (Except.ok (ctx, out), tr))
    (hbwd : (RecomputeFunction.backward ctx rng2 gradOuts).1 = Except.ok grads) :
    grads = collectGrads (driverBackward f (detach_variable args)
      ((normalizeOut (f.call true (detach_variable args))).filter
        (fun t => !t.stop_gradient)) gradOuts) ∧
    ctx = mkCtx f preserve (if preserve then some rng else none) args := by
  obtain ⟨hctx, -⟩ := forward_ok_inv hfwd
  subst hctx
  rw [backward_eq] at hbwd
  have hb2 : backwardCore (mkCtx f preserve (if preserve then some rng else none) args)
      gradOuts = Except.ok grads := hbwd
  rw [backwardCore_mkCtx] at hb2
  refine ⟨?_, rfl⟩
  split at hb2
  · split at hb2
    · exact absurd hb2 (by simp)
    · split at hb2
      · exact (Except.ok.inj hb2).symm
      · exact absurd hb2 (by simp)
  · exact absurd hb2 (by simp)

/-- C2: every backward invocation that returns yields exactly
`len(tensor_slot_indices)` gradients, and entry `k` is the gradient
accumulator of the detached copy of the `k`-th tensor argument in original
argument order (the tensor entries, in order, of the detached input list
after the local backward drive), no matter how many non-tensor arguments
are interleaved. -/
theorem backward_grad_count_and_order
    (f : RunFn) (preserve : Bool) (args : List Val) (device : String)
    (rng rng2 : Nat) (gradOuts grads : List (Option Int)) (ctx : Ctx)
    (out : PyOut) (tr : List Event)
    (hfwd : RecomputeFunction.forward f preserve args device rng =
      (Except.ok (ctx, out), tr))
    (hbwd : (RecomputeFunction.backward ctx rng2 gradOuts).1 = Except.ok grads) :
    grads.length = ctx.tensor_indices.length ∧
    grads = collectGrads (driverBackward f (detach_variable args)
      ((normalizeOut (f.call true (detach_variable args))).filter
        (fun t => !t.stop_gradient)) gradOuts) := by
  obtain ⟨hg, hctx⟩ := backward_ok_grads hfwd hbwd
  subst hctx
  refine ⟨?_, hg⟩
  rw [hg]
  have h1 : (collectGrads (driverBackward f (detach_variable args)
      ((normalizeOut (f.call true (detach_variable args))).filter
        (fun t => !t.stop_gradient)) gradOuts)).length =
      ((detach_variable args).filter Val.isTensor).length :=
    collect_writeGrads_length f ((detach_variable args).map Val.obs)
      ((normalizeOut (f.call true (detach_variable args))).filter
        (fun t => !t.stop_gradient)) gradOuts (detach_variable args) 0
  rw [h1, detach_variable_filter, List.length_map]
  exact (partition_idx_len_filter args 0).symm

/-- Witness for C2 on a mixed argument list `[tensor, scalar, tensor]`:
two gradients come back (one per tensor slot), in original order. -/
theorem backward_grad_count_and_order_witness :
    RecomputeFunction.forward fLin false args0 "cpu" 0 =
      (Except.ok (mkCtx fLin false none args0, fLin.call false args0),
        [Event.ranFunction]) ∧
    (RecomputeFunction.backward (mkCtx fLin false none args0) 3 [some 5]).1 =
      Except.ok [some 5, none] ∧
    ([some (5 : Int), none] : List (Option Int)).length =
      (mkCtx fLin false none args0).tensor_indices.length ∧
    ([some (5 : Int), none] : List (Option Int)) =
      collectGrads (driverBackward fLin (detach_variable args0)
        ((normalizeOut (fLin.call true (detach_variable args0))).filter
          (fun t => !t.stop_gradient)) [some 5]) := by
  have h := backward_grad_count_and_order fLin false args0 "cpu" 0 3 [some 5]
    [some 5, none] (mkCtx fLin false none args0) (fLin.call false args0)
    [Event.ranFunction] rfl rfl
  exact ⟨rfl, rfl, h.1, h.2⟩

/-- C10 (implicit): in every backward invocation that returns, the gradient
entry for a tensor input whose gradient tracking is disabled is `none` —
its detached copy's accumulator is never written by the local backward —
so callers must accept absent gradient entries. -/
theorem backward_none_for_untracked
    (f : RunFn) (preserve : Bool) (args : List Val) (device : String)
    (rng rng2 : Nat) (gradOuts grads : List (Option Int)) (ctx : Ctx)
    (out : PyOut) (tr : List Event) (k : Nat) (t : Tensor)
    (hfwd : RecomputeFunction.forward f preserve args device rng =
      (Except.ok (ctx, out), tr))
    (hbwd : (RecomputeFunction.backward ctx rng2 gradOuts).1 = Except.ok grads)
    (hk : (args.filter Val.isTensor).get? k = some (Val.tensor t))
    (ht : t.stop_gradient = true) :
    grads.get? k = some none := by
  obtain ⟨hg, -⟩ := backward_ok_grads hfwd hbwd
  have hk2 : ((detach_variable args).filter Val.isTensor).get? k =
      some (Val.tensor { t.detach with stop_gradient := t.stop_gradient }) := by
    rw [detach_variable_filter, List.get?_map, hk]
    rfl
  have hmain := collect_writeGrads_get f ((detach_variable args).map Val.obs)
    ((normalizeOut (f.call true (detach_variable args))).filter
      (fun s => !s.stop_gradient)) gradOuts (detach_variable args) k 0
    { t.detach with stop_gradient := t.stop_gradient } hk2
    (by simpa [Tensor.detach] using ht)
  rw [hg]
  exact hmain

/-- Witness for C10: two tensor inputs, the second non-tracked; its
returned gradient entry is `none`. -/
theorem backward_none_for_untracked_witness :
    RecomputeFunction.forward fOne false argsAB "cpu" 0 =
      (Except.ok (mkCtx fOne false none argsAB, fOne.call false argsAB),
        [Event.ranFunction]) ∧
    (RecomputeFunction.backward (mkCtx fOne false none argsAB) 0 [some 3]).1 =
      Except.ok [some 10, none] ∧
    (argsAB.filter Val.isTensor).get? 1 = some (Val.tensor tB) ∧
    tB.stop_gradient = true ∧
    ([some (10 : Int), none] : List (Option Int)).get? 1 = some none := by
  refine ⟨rfl, rfl, rfl, rfl, ?_⟩
  exact backward_none_for_untracked fOne false argsAB "cpu" 0 0 [some 3]
    [some 10, none] (mkCtx fOne false none argsAB) (fOne.call false argsAB)
    [Event.ranFunction] 1 tB rfl rfl rfl rfl

/-- C9: after the forward partition, slot `i` of `positional_inputs` holds
the `None` placeholder when argument `i` is a tensor and the original value
verbatim otherwise; `len(tensor_slot_indices) == len(saved_tensors)`; and
backward's reassembly step reconstructs exactly the original positional
argument sequence, so non-tensor arguments reach the run function unchanged
in both forward and replay. -/
theorem partition_reassembly_invariant (args : List Val) :
    (∀ i v, args.get? i = some v →
      (v.isTensor = true → (partitionLoop args 0).1.get? i = some Val.pynone) ∧
      (v.isTensor = false → (partitionLoop args 0).1.get? i = some v)) ∧
    (partitionLoop args 0).2.1.length = (partitionLoop args 0).2.2.length ∧
    restoreInputs (partitionLoop args 0).1 (partitionLoop args 0).2.1
      (partitionLoop args 0).2.2 = args := by
  refine ⟨?_, partition_idx_saved_len args 0, restore_partition args⟩
  intro i v hv
  constructor
  · intro ht
    rw [partition_inputs_map args 0, List.get?_map, hv]
    simp [ht]
  · intro hf
    rw [partition_inputs_map args 0, List.get?_map, hv]
    simp [hf]

/-- Witness for C9 on the mixed argument list `[tensor, scalar, tensor]`. -/
theorem partition_reassembly_invariant_witness :
    (partitionLoop args0 0).1.get? 0 = some Val.pynone ∧
    (partitionLoop args0 0).1.get? 1 = some (Val.raw 2) ∧
    (partitionLoop args0 0).2.1.length = (partitionLoop args0 0).2.2.length ∧
    restoreInputs (partitionLoop args0 0).1 (partitionLoop args0 0).2.1
      (partitionLoop args0 0).2.2 = args0 :=
  ⟨((partition_reassembly_invariant args0).1 0 (Val.tensor tA) rfl).1 rfl,
   ((partition_reassembly_invariant args0).1 1 (Val.raw 2) rfl).2 rfl,
   (partition_reassembly_invariant args0).2.1,
   (partition_reassembly_invariant args0).2.2⟩

/-- C3 counterexample: with two recomputed outputs of which only the first
tracks gradients and two incoming gradients, the selected-outputs count (1)
equals the count of the positionally corresponding incoming gradients (1),
yet the code fails with the gradient-count-mismatch error instead of
proceeding with those pairs: the code compares the selection against — and
passes to the driver — the entire unfiltered incoming gradient list. -/
theorem backward_selection_counterexample :
    (bwdSelected ctxMix).length =
      (specCorrespondingGrads (bwdOuts ctxMix) [some 1, some 2]).length ∧
    (RecomputeFunction.backward ctxMix 0 [some 1, some 2]).1 =
      Except.error (RecomputeError.gradientCountMismatch 1 2) := by
  exact ⟨by decide, by rfl⟩

/-- C3 (amended): the backward pass selects exactly the recomputed outputs
with gradient tracking enabled and pairs them with the **entire** incoming
gradient sequence (unfiltered, `None` entries included); an empty selection
fails with the no-gradient-required error; a selected-outputs count that
differs from the **total** incoming-gradient count fails with the
gradient-count-mismatch error naming both counts; otherwise the selected
outputs together with the full incoming gradient sequence are passed as
roots to the local backward driver. -/
theorem backward_selection_behavior (ctx : Ctx) (rng : Nat)
    (g : List (Option Int)) (hlen : (bwdOuts ctx).length = g.length) :
    (bwdSelected ctx = [] →
      (RecomputeFunction.backward ctx rng g).1 =
        Except.error RecomputeError.noGradientRequired) ∧
    (bwdSelected ctx ≠ [] → (bwdSelected ctx).length ≠ g.length →
      (RecomputeFunction.backward ctx rng g).1 =
        Except.error (RecomputeError.gradientCountMismatch
          (bwdSelected ctx).length g.length)) ∧
    (bwdSelected ctx ≠ [] → (bwdSelected ctx).length = g.length →
      (RecomputeFunction.backward ctx rng g).1 =
        Except.ok (collectGrads (driverBackward ctx.run_function
          (bwdDetached ctx) (bwdSelected ctx) g))) := by
  have hfst : (RecomputeFunction.backward ctx rng g).1 = backwardCore ctx g := by
    rw [backward_eq]
  refine ⟨?_, ?_, ?_⟩
  · intro hempty
    rw [hfst, backwardCore_cases, if_pos hlen, if_pos (by rw [hempty]; rfl)]
  · intro hne hneq
    rw [hfst, backwardCore_cases, if_pos hlen,
      if_neg (fun h => hne (List.length_eq_zero.mp h)), if_neg hneq]
  · intro hne heq
    rw [hfst, backwardCore_cases, if_pos hlen,
      if_neg (fun h => hne (List.length_eq_zero.mp h)), if_pos heq]

/-- Witness for the amended C3: two tracked outputs and two incoming
gradients reach the driver with the full gradient list. -/
theorem backward_selection_behavior_witness :
    (bwdOuts ctxPair).length =
      ([some (1 : Int), some 2] : List (Option Int)).length ∧
    bwdSelected ctxPair ≠ [] ∧
    (bwdSelected ctxPair).length =
      ([some (1 : Int), some 2] : List (Option Int)).length ∧
    (RecomputeFunction.backward ctxPair 0 [some 1, some 2]).1 =
      Except.ok (collectGrads (driverBackward ctxPair.run_function
        (bwdDetached ctxPair) (bwdSelected ctxPair) [some 1, some 2])) :=
  ⟨by decide, by decide, by decide,
   (backward_selection_behavior ctxPair 0 [some 1, some 2] (by decide)).2.2
     (by decide) (by decide)⟩

/-- C4: backward normalizes the recomputed outputs to a tuple (a single
tensor becomes a one-element tuple) and fails with the shape-mismatch error
whenever that tuple's length differs from the incoming-gradient sequence
length. -/
theorem backward_shape_check (ctx : Ctx) (rng : Nat) (g : List (Option Int)) :
    (∀ t, normalizeOut (PyOut.single t) = [t]) ∧
    ((bwdOuts ctx).length ≠ g.length →
      (RecomputeFunction.backward ctx rng g).1 =
        Except.error RecomputeError.shapeMismatch) := by
  refine ⟨fun t => rfl, fun h => ?_⟩
  have hfst : (RecomputeFunction.backward ctx rng g).1 = backwardCore ctx g := by
    rw [backward_eq]
  rw [hfst, backwardCore_cases, if_neg h]

/-- Witness for C4: two recomputed outputs against one incoming gradient —
one fewer than the outputs — trigger the shape-mismatch failure. -/
theorem backward_shape_check_witness :
    (bwdOuts ctxPair).length ≠ ([some (1 : Int)] : List (Option Int)).length ∧
    (RecomputeFunction.backward ctxPair 0 [some 1]).1 =
      Except.error RecomputeError.shapeMismatch ∧
    normalizeOut (PyOut.single tA) = [tA] :=
  ⟨by decide, (backward_shape_check ctxPair 0 [some 1]).2 (by decide),
   (backward_shape_check ctxPair 0 [some 1]).1 tA⟩

/-- Witness for C1: a linear run function on the mixed argument list, no
RNG preservation, incoming gradient `5`; the operator's backward gradients
equal the direct ones. -/
theorem recompute_gradient_equivalence_witness :
    needRecompute args0 = true ∧
    args0.all freshVal = true ∧
    (∃ ctx out tr,
      RecomputeFunction.forward fLin false args0 "cpu" 0 =
        (Except.ok (ctx, out), tr) ∧
      (RecomputeFunction.backward ctx 9 [some 5]).1 =
        Except.ok (directGradients fLin args0 [some 5])) :=
  ⟨by decide, by decide,
   recompute_gradient_equivalence fLin args0 [some 5] false "cpu" 0 9
     (by decide) (by decide) (by decide) (by decide) (by decide) (by decide)⟩

/-- C5: the tensor-detachment utility returns a tuple of the same length
and order in which non-tensors pass through unchanged and every tensor
becomes a new tensor sharing the original's storage, disconnected from the
autograd graph, with a fresh accumulator and its gradient-tracking flag
explicitly copied from the original; being a pure function, it does not
modify its inputs. -/
theorem detach_variable_contract (inputs : List Val) :
    (detach_variable inputs).length = inputs.length ∧
    (∀ i t, inputs.get? i = some (Val.tensor t) →
      (detach_variable inputs).get? i = some (Val.tensor
        { data := t.data, stop_gradient := t.stop_gradient, grad := none,
          in_graph := false })) ∧
    (∀ i v, inputs.get? i = some v → v.isTensor = false →
      (detach_variable inputs).get? i = some v) := by
  refine ⟨by rw [detach_variable_eq_map, List.length_map], ?_, ?_⟩
  · intro i t hi
    rw [detach_variable_eq_map, List.get?_map, hi]
    rfl
  · intro i v hi hv
    rw [detach_variable_eq_map, List.get?_map, hi]
    cases v with
    | tensor t => simp [Val.isTensor] at hv
    | raw w => rfl
    | pynone => rfl

/-- Witness for C5 on the mixed argument list. -/
theorem detach_variable_contract_witness :
    args0.get? 0 = some (Val.tensor tA) ∧
    (detach_variable args0).get? 0 = some (Val.tensor
      { data := 3, stop_gradient := false, grad := none, in_graph := false }) ∧
    args0.get? 1 = some (Val.raw 2) ∧
    (detach_variable args0).get? 1 = some (Val.raw 2) ∧
    (detach_variable args0).length = args0.length :=
  ⟨rfl, (detach_variable_contract args0).2.1 0 tA rfl, rfl,
   (detach_variable_contract args0).2.2 1 (Val.raw 2) rfl rfl,
   (detach_variable_contract args0).1⟩

/-- C6: the RNG guard saves the device RNG state current at entry, installs
the given snapshot for the block, and restores the saved state on every
exit path: the state after the guard equals the entry state whether the
block returned or failed, and a failure is propagated only together with
the already-restored state. -/
theorem rng_guard_contract {E α : Type} (rng_state cur : Nat)
    (block : Nat → Except E (α × Nat)) :
    (swith_rng_state rng_state block cur).2 = cur ∧
    (∀ e, block rng_state = Except.error e →
      swith_rng_state rng_state block cur = (Except.error e, cur)) ∧
    (∀ a s, block rng_state = Except.ok (a, s) →
      swith_rng_state rng_state block cur = (Except.ok a, cur)) := by
  refine ⟨?_, ?_, ?_⟩
  · cases hb : block rng_state with
    | ok v => obtain ⟨a, s⟩ := v; simp [swith_rng_state, hb]
    | error e => simp [swith_rng_state, hb]
  · intro e he
    simp [swith_rng_state, he]
  · intro a s hs
    simp [swith_rng_state, hs]

/-- Witness for C6 with a succeeding block that advances the generator and
a failing block. -/
theorem rng_guard_contract_witness :
    (swith_rng_state 5 blockOkW 7).2 = 7 ∧
    swith_rng_state 5 blockErrW 7 = (Except.error 42, 7) ∧
    swith_rng_state 5 blockOkW 7 = (Except.ok (5 : Int), 7) :=
  ⟨(rng_guard_contract 5 7 blockOkW).1,
   (rng_guard_contract 5 7 blockErrW).2.1 42 rfl,
   (rng_guard_contract 5 7 blockOkW).2.2 5 6 rfl⟩

/-- C7: a forward invocation with `preserve_rng_state` on a non-GPU device
fails with the unsupported-device error naming the current device, without
ever executing the run function; on a GPU device it instead captures the
current device RNG state into the context. -/
theorem forward_device_precondition (f : RunFn) (args : List Val)
    (device : String) (rng : Nat) :
    (isGpuDevice device = false →
      (RecomputeFunction.forward f true args device rng).1 =
        Except.error (RecomputeError.unsupportedDevice device) ∧
      Event.ranFunction ∉ (RecomputeFunction.forward f true args device rng).2) ∧
    (isGpuDevice device = true →
      ∃ ctx out tr,
        RecomputeFunction.forward f true args device rng =
          (Except.ok (ctx, out), tr) ∧
        ctx.fw_cuda_rng_state = some rng) := by
  constructor
  · intro hg
    have heq : RecomputeFunction.forward f true args device rng =
        (Except.error (RecomputeError.unsupportedDevice device),
         if needRecompute args then [] else [Event.warnedUnnecessary]) := by
      simp [RecomputeFunction.forward, hg]
    rw [heq]
    refine ⟨rfl, ?_⟩
    cases needRecompute args <;> simp
  · intro hg
    refine ⟨mkCtx f true (some rng) args, f.call false args,
      (if needRecompute args then [] else [Event.warnedUnnecessary]) ++
        [Event.capturedRng, Event.ranFunction], ?_, rfl⟩
    exact forward_ok f true args device rng (fun _ => hg)

/-- Witness for C7 on a CPU device (failure, run function never runs) and a
GPU device (RNG snapshot captured). -/
theorem forward_device_precondition_witness :
    isGpuDevice "cpu" = false ∧
    (RecomputeFunction.forward fLin true args0 "cpu" 3).1 =
      Except.error (RecomputeError.unsupportedDevice "cpu") ∧
    Event.ranFunction ∉ (RecomputeFunction.forward fLin true args0 "cpu" 3).2 ∧
    isGpuDevice "gpu:0" = true ∧
    (∃ ctx out tr,
      RecomputeFunction.forward fLin true args0 "gpu:0" 3 =
        (Except.ok (ctx, out), tr) ∧
      ctx.fw_cuda_rng_state = some 3) :=
  ⟨by decide,
   ((forward_device_precondition fLin args0 "cpu" 3).1 (by decide)).1,
   ((forward_device_precondition fLin args0 "cpu" 3).1 (by decide)).2,
   by decide,
   (forward_device_precondition fLin args0 "gpu:0" 3).2 (by decide)⟩

/-- C8: the public entry point treats `preserve_rng_state` as an optional
named flag defaulting to true, rejects any other named argument with the
invalid-argument error naming the unexpected keys without invoking the
operator, and otherwise delegates to the operator's forward path and
returns exactly what the run function returns (under the no-grad mode) on
the given positional arguments. -/
theorem recompute_entry_contract (f : RunFn) (args : List Val)
    (kwargs : List (String × Bool)) (device : String) (rng : Nat) :
    (kwargs.filter (fun p => p.1 != "preserve_rng_state") = [] →
      recompute f args kwargs device rng =
        RecomputeFunction.forward f
          ((kwargs.lookup "preserve_rng_state").getD true) args device rng) ∧
    (kwargs = [] →
      recompute f args kwargs device rng =
        RecomputeFunction.forward f true args device rng) ∧
    (kwargs.filter (fun p => p.1 != "preserve_rng_state") ≠ [] →
      recompute f args kwargs device rng =
        (Except.error (RecomputeError.invalidArgument (String.intercalate ","
          ((kwargs.filter (fun p => p.1 != "preserve_rng_state")).map
            Prod.fst))), []) ∧
      Event.ranFunction ∉ (recompute f args kwargs device rng).2) ∧
    (∀ ctx out tr,
      recompute f args kwargs device rng = (Except.ok (ctx, out), tr) →
      out = f.call false args) := by
  have hrec : recompute f args kwargs device rng =
      (if (kwargs.filter (fun p => p.1 != "preserve_rng_state")).isEmpty then
        RecomputeFunction.forward f
          ((kwargs.lookup "preserve_rng_state").getD true) args device rng
      else
        (Except.error (RecomputeError.invalidArgument (String.intercalate ","
          ((kwargs.filter (fun p => p.1 != "preserve_rng_state")).map
            Prod.fst))), [])) := rfl
  refine ⟨?_, ?_, ?_, ?_⟩
  · intro h
    rw [hrec, if_pos (by rw [h]; rfl)]
  · intro h
    subst h
    rfl
  · intro h
    have hne : ¬ ((kwargs.filter
        (fun p => p.1 != "preserve_rng_state")).isEmpty = true) := by
      intro hie
      exact h (List.isEmpty_iff.mp hie)
    rw [hrec, if_neg hne]
    exact ⟨rfl, by simp⟩
  · intro ctx out tr h
    by_cases hk : (kwargs.filter (fun p => p.1 != "preserve_rng_state")).isEmpty = true
    · rw [hrec, if_pos hk] at h
      exact (forward_ok_inv h).2
    · rw [hrec, if_neg hk] at h
      simp only [Prod.mk.injEq] at h
      exact absurd h.1 (by simp)

/-- Witness for C8: an unexpected keyword argument `foo` is rejected with
its key named, and the no-keyword call defaults and returns the run
function's output. -/
theorem recompute_entry_contract_witness :
    recompute fLin args0 [("foo", true)] "cpu" 0 =
      (Except.error (RecomputeError.invalidArgument "foo"), []) ∧
    recompute fLin args0 [] "cpu" 0 =
      RecomputeFunction.forward fLin true args0 "cpu" 0 ∧
    (∀ ctx out tr,
      recompute fLin args0 [] "gpu:0" 0 = (Except.ok (ctx, out), tr) →
      out = fLin.call false args0) :=
  ⟨((recompute_entry_contract fLin args0 [("foo", true)] "cpu" 0).2.2.1
      (by decide)).1,
   (recompute_entry_contract fLin args0 [] "cpu" 0).2.1 rfl,
   (recompute_entry_contract fLin args0 [] "gpu:0" 0).2.2.2⟩
